import Mathlib

/-!
Verification of the Linux distribution-identification and build-sequencing
subsystems of the briefcase packaging tool.

The definitions below are a shallow embedding of
`src/briefcase/integrations/linux.py` (os-release parsing, the distribution
registry and resolver, and `LinuxEnvironment`), together with a model of the
build command's action-chain orchestration.  Python dictionaries are embedded
as functions into `Option`, Python exceptions as `Except` error values, and
the handful of Python string primitives the code uses (`str.split`,
`str.rstrip`, `re.match` against the fixed key pattern, and
`ast.literal_eval` on quote-initial values) are embedded as executable Lean
functions over `List Char`.
-/

set_option maxHeartbeats 1000000

namespace Briefcase

/-! ## Python string primitives used by `linux.py` -/

/-- The whitespace characters recognised by Python's `str.rstrip()` /
`str.split()` (ASCII subset; the code under study only meets ASCII). -/
def pyIsSpaceChar (c : Char) : Bool :=
  c = ' ' || c = '\t' || c = '\n' || c = '\r' || c = '\x0b' || c = '\x0c'

/-- Python `str.rstrip()`: drop trailing whitespace. -/
def pyRstrip (s : String) : String :=
  String.mk (s.data.reverse.dropWhile pyIsSpaceChar).reverse

/-- Split a character list at every separator position (Python
`str.split(sep)` semantics: empty pieces are kept). -/
def pySplitBy (isSep : Char → Bool) : List Char → List (List Char)
  | [] => [[]]
  | c :: rest =>
    let r := pySplitBy isSep rest
    if isSep c then [] :: r
    else
      match r with
      | g :: gs => (c :: g) :: gs
      | [] => [[c]]

/-- Python `content.split("\n")`. -/
def pySplitNewlines (s : String) : List String :=
  (pySplitBy (fun c => c = '\n') s.data).map String.mk

/-- Python `str.split()` with no argument: split on whitespace runs,
discarding empty pieces. -/
def pyStrSplit (s : String) : List String :=
  ((pySplitBy pyIsSpaceChar s.data).map String.mk).filter (fun t => t ≠ "")

/-! ## Model of `ast.literal_eval` on quote-initial values

`parse_freedesktop_os_release` only calls `ast.literal_eval` when the value
begins with `'` or `"`.  We model the fragment of Python literal syntax
reachable from such values: short (single- or double-quoted) string literals
with the usual backslash escapes, implicit adjacent-literal concatenation,
top-level tuple displays built from such literals, and `+`-chains (which
parse but make `literal_eval` raise `ValueError`, not `SyntaxError`).
Not modelled (all reported as syntax errors, which keeps them outside every
validity hypothesis proved below): triple-quoted strings, `\u`/`\U`/`\N`
escapes, parenthesised or non-string tuple elements. -/

/-- A value produced by `ast.literal_eval` in the reachable fragment (every
tuple reachable in the modelled fragment has string elements). -/
inductive PyValue where
  | pstr (s : String)
  | ptuple (elems : List String)
deriving DecidableEq

/-- Outcome of `ast.literal_eval`:  a value, a `SyntaxError` (caught by the
parser and converted to `ParseError`), or a `ValueError` (NOT caught by the
parser, hence escaping it). -/
inductive LitResult where
  | ok (v : PyValue)
  | synErr (msg : String)
  | valErr (msg : String)
deriving DecidableEq

def isOctalChar (c : Char) : Bool := '0' ≤ c && c ≤ '7'

def octDigit (c : Char) : Nat := c.toNat - '0'.toNat

def hexDigitVal (c : Char) : Option Nat :=
  let n := c.toNat
  if 48 ≤ n && n ≤ 57 then some (n - 48)
  else if 97 ≤ n && n ≤ 102 then some (n - 87)
  else if 65 ≤ n && n ≤ 70 then some (n - 55)
  else none

/-- Prepend a character to the value part of a lexer result. -/
def consLex (ch : Char) : Option (List Char × List Char) → Option (List Char × List Char)
  | some (v, r) => some (ch :: v, r)
  | none => none

/-- Lex the body of a Python short string literal opened with quote `q`
(the opening quote has been consumed).  Returns the unescaped contents and
the remainder after the closing quote, or `none` on a `SyntaxError`
(unterminated literal, truncated escape, raw newline).  Every step consumes
at least one character, so `fuel` at least `length + 1` never runs out;
exhausted fuel reports a syntax error like any other lexing dead end. -/
def lexShortString (q : Char) : Nat → List Char → Option (List Char × List Char)
  | 0, _ => none
  | _ + 1, [] => none
  | fuel + 1, c :: tail =>
    if c = '\\' then
      match tail with
      | [] => none
      | e :: rest =>
        if e = 'n' then consLex '\n' (lexShortString q fuel rest)
        else if e = 't' then consLex '\t' (lexShortString q fuel rest)
        else if e = 'r' then consLex '\r' (lexShortString q fuel rest)
        else if e = '\\' then consLex '\\' (lexShortString q fuel rest)
        else if e = '\'' then consLex '\'' (lexShortString q fuel rest)
        else if e = '"' then consLex '"' (lexShortString q fuel rest)
        else if e = 'a' then consLex '\x07' (lexShortString q fuel rest)
        else if e = 'b' then consLex '\x08' (lexShortString q fuel rest)
        else if e = 'f' then consLex '\x0c' (lexShortString q fuel rest)
        else if e = 'v' then consLex '\x0b' (lexShortString q fuel rest)
        else if e = 'x' then
          match rest with
          | h1 :: rest1 =>
            match rest1 with
            | h2 :: rest2 =>
              match hexDigitVal h1, hexDigitVal h2 with
              | some a, some b => consLex (Char.ofNat (16 * a + b)) (lexShortString q fuel rest2)
              | _, _ => none
            | [] => none
          | [] => none
        else if e = 'u' || e = 'U' || e = 'N' then none
        else if isOctalChar e then
          match rest with
          | o2 :: rest1 =>
            if isOctalChar o2 then
              match rest1 with
              | o3 :: rest2 =>
                if isOctalChar o3 then
                  consLex (Char.ofNat (64 * octDigit e + 8 * octDigit o2 + octDigit o3))
                    (lexShortString q fuel rest2)
                else
                  consLex (Char.ofNat (8 * octDigit e + octDigit o2)) (lexShortString q fuel rest1)
              | [] => consLex (Char.ofNat (8 * octDigit e + octDigit o2)) (lexShortString q fuel rest1)
            else consLex (Char.ofNat (octDigit e)) (lexShortString q fuel rest)
          | [] => consLex (Char.ofNat (octDigit e)) (lexShortString q fuel rest)
        else consLex '\\' (consLex e (lexShortString q fuel rest))
    else if c = q then some ([], tail)
    else if c = '\n' || c = '\r' then none
    else consLex c (lexShortString q fuel tail)

/-- Whitespace between tokens on a single logical line. -/
def skipBlanks : List Char → List Char :=
  List.dropWhile (fun c => c = ' ' || c = '\t' || c = '\x0c')

/-- Lex one string-literal group: a quote-initial literal followed by any
implicitly concatenated further literals.  `fuel` bounds the number of
literals (each consumes at least two characters, so `length + 1` fuel can
never run out on a real input). -/
def lexGroup : Nat → List Char → Option (String × List Char)
  | 0, _ => none
  | fuel + 1, cs =>
    match cs with
    | [] => none
    | c :: rest =>
      if c = '"' || c = '\'' then
        match lexShortString c (rest.length + 1) rest with
        | some (v, rest1) =>
          let rest2 := skipBlanks rest1
          match rest2 with
          | d :: _ =>
            if d = '"' || d = '\'' then
              match lexGroup fuel rest2 with
              | some (v2, rest3) => some (String.mk v ++ v2, rest3)
              | none => none
            else some (String.mk v, rest2)
          | [] => some (String.mk v, [])
        | none => none
      else none

/-- Lex one tuple element: a `+`-chain of string groups.  The Bool records
whether a `+` occurred (making the element a non-literal `BinOp` node, which
`literal_eval` rejects with `ValueError`). -/
def lexElem : Nat → List Char → Option ((String × Bool) × List Char)
  | 0, _ => none
  | fuel + 1, cs =>
    match lexGroup (fuel + 1) cs with
    | none => none
    | some (v, rest) =>
      match rest with
      | '+' :: rest2 =>
        match lexElem fuel (skipBlanks rest2) with
        | some ((v2, _), rest3) => some ((v ++ v2, true), rest3)
        | none => none
      | _ => some ((v, false), rest)

/-- Lex the elements after a top-level comma (trailing comma allowed). -/
def lexTupleRest : Nat → List Char → Option (List (String × Bool))
  | 0, _ => none
  | fuel + 1, cs =>
    match skipBlanks cs with
    | [] => some []
    | cs1 =>
      match lexElem (fuel + 1) cs1 with
      | none => none
      | some (e, rest) =>
        match rest with
        | [] => some [e]
        | ',' :: rest2 =>
          match lexTupleRest fuel rest2 with
          | some es => some (e :: es)
          | none => none
        | _ => none

/-- Model of `ast.literal_eval val` for a `val` whose first character is a
quote (the only way `parse_freedesktop_os_release` calls it). -/
def pyLiteralEval (v : String) : LitResult :=
  let cs := v.data
  let fuel := cs.length + 1
  match lexElem fuel cs with
  | none => .synErr "invalid syntax"
  | some ((s, plus), rest) =>
    match rest with
    | [] => if plus then .valErr "malformed node or string" else .ok (.pstr s)
    | ',' :: rest2 =>
      match lexTupleRest fuel rest2 with
      | none => .synErr "invalid syntax"
      | some elems =>
        if plus || elems.any (fun e => e.2) then .valErr "malformed node or string"
        else .ok (.ptuple (s :: elems.map (fun e => e.1)))
    | _ => .synErr "invalid syntax"

/-! ## `parse_freedesktop_os_release` (`linux.py` lines 20-55) -/

/-- A parsed os-release mapping, as a Python dict from key to value. -/
def PyDict : Type := String → Option PyValue

/-- An exception escaping `parse_freedesktop_os_release`: either the
`ParseError` it raises itself, or a `ValueError` out of `ast.literal_eval`
(only `SyntaxError` is caught at line 43). -/
inductive PyException where
  | parseError (msg : String)
  | valueError (msg : String)
deriving DecidableEq

/-- First char of the key pattern `[A-Z]`. -/
def keyStartOk (c : Char) : Bool := 'A' ≤ c && c ≤ 'Z'

/-- Later chars of the key pattern `[A-Z_0-9]`. -/
def keyCharOk (c : Char) : Bool :=
  ('A' ≤ c && c ≤ 'Z') || c = '_' || ('0' ≤ c && c ≤ '9')

/-- Model of `re.match(r"([A-Z][A-Z_0-9]+)=(.*)", line)`.  Key characters
cannot be `=`, so the regex matches exactly when the text before the first
`=` is a well-formed key (length at least two); the value is everything
after that first `=`. -/
def matchKeyValue (line : String) : Option (String × String) :=
  match line.data.dropWhile (fun c => c ≠ '=') with
  | _ :: valChars =>
    match line.data.takeWhile (fun c => c ≠ '=') with
    | c0 :: krest =>
      if keyStartOk c0 && !krest.isEmpty && krest.all keyCharOk then
        some (String.mk (c0 :: krest), String.mk valChars)
      else none
    | [] => none
  | [] => none

/-- Embeds `val and val[0] in "\"'"` from line 40. -/
def startsWithQuoteChar (v : String) : Bool :=
  match v.data with
  | c :: _ => c = '"' || c = '\''
  | [] => false

/-- Embeds `line.startswith("#")`. -/
def startsWithHash (l : String) : Bool :=
  match l.data with
  | c :: _ => c = '#'
  | [] => false

/-- The fixed prefix of every `ParseError` message raised by the parser. -/
def parseErrorIntro : String := "Failed to parse output of FreeDesktop os-release file; "

/-- Python `repr` of a string, as interpolated by `{line!r}` (modelled for
the common case; the error-message theorems below only certify the
line-number part of the message, not this suffix). -/
def pyReprStr (s : String) : String :=
  if s.data.contains '\'' && !(s.data.contains '"') then "\"" ++ s ++ "\""
  else "'" ++ s ++ "'"

/-- Process one line of the loop body (lines 33-53): `none` means the line
was skipped, `some (k, v)` means `values[k] = v` is executed. -/
def processLine (lineNumber : Nat) (rawLine : String) :
    Except PyException (Option (String × PyValue)) :=
  let line := pyRstrip rawLine
  if line = "" then .ok none
  else if startsWithHash line then .ok none
  else
    match matchKeyValue line with
    | some kv =>
      if startsWithQuoteChar kv.2 then
        match pyLiteralEval kv.2 with
        | .ok v => .ok (some (kv.1, v))
        | .synErr m =>
          .error (.parseError
            (parseErrorIntro ++ "Line " ++ toString lineNumber ++ ": " ++ m))
        | .valErr m => .error (.valueError m)
      else .ok (some (kv.1, .pstr kv.2))
    | none =>
      .error (.parseError
        (parseErrorIntro ++ "Line " ++ toString lineNumber ++ ": " ++ pyReprStr line))

/-- Embeds `values[name] = val` on the embedded dict. -/
def updateDict (values : PyDict) (name : String) (val : PyValue) : PyDict :=
  fun x => if x = name then some val else values x

/-- The enumerate loop of lines 33-53. -/
def parseLoop : Nat → List String → PyDict → Except PyException PyDict
  | _, [], values => .ok values
  | n, l :: rest, values =>
    match processLine n l with
    | .error e => .error e
    | .ok none => parseLoop (n + 1) rest values
    | .ok (some kv) => parseLoop (n + 1) rest (updateDict values kv.1 kv.2)

/-- Embeds `parse_freedesktop_os_release` (lines 20-55). -/
def parse_freedesktop_os_release (content : String) : Except PyException PyDict :=
  parseLoop 1 (pySplitNewlines content) (fun _ => none)

/-! ## Distribution registry and resolver (`linux.py` lines 58-256)

Each `Distribution` subclass is a record of its class-level fields; the
module-level `_distributions` dict (populated by `__init_subclass__` in
class-definition order) is the registry list in that order.  A resolved
instance carries the selected profile plus the `vendor`/`codename` runtime
context set by `Distribution.__init__`. -/

inductive PackageFormat where
  | deb
  | pkg
  | rpm
deriving DecidableEq

structure DistroProfile where
  name : String
  freedesktop_id : Option String
  freedesktop_id_like : Option (List String)
  packaging_format : Option PackageFormat
  install_package_cmdline : Option (List String)
  verify_package_cmdline : Option (List String)
  python_packages : Option (List String)
  build_packages : Option (List String)
deriving DecidableEq

def Arch : DistroProfile :=
  { name := "Arch"
    freedesktop_id := some "arch"
    freedesktop_id_like := some ["arch"]
    packaging_format := some .pkg
    install_package_cmdline := some ["pacman", "-Syu"]
    verify_package_cmdline := some ["pacman", "-Q"]
    python_packages := some ["python3"]
    build_packages := some ["base-devel"] }

def Debian : DistroProfile :=
  { name := "Debian"
    freedesktop_id := some "debian"
    freedesktop_id_like := some ["ubuntu", "debian"]
    packaging_format := some .deb
    install_package_cmdline := some ["apt", "install"]
    verify_package_cmdline := some ["dpkg", "-s"]
    python_packages := some ["python3-dev"]
    build_packages := some ["build-essential"] }

def RHEL : DistroProfile :=
  { name := "RHEL"
    freedesktop_id := some "rhel"
    freedesktop_id_like := some ["fedora", "rhel"]
    packaging_format := some .rpm
    install_package_cmdline := some ["dnf", "install"]
    verify_package_cmdline := some ["rpm", "-q"]
    python_packages := some ["python3-devel"]
    build_packages := some ["gcc", "make", "pkgconf-pkg-config"] }

def SUSE : DistroProfile :=
  { name := "SUSE"
    freedesktop_id := some "suse"
    freedesktop_id_like := some ["suse"]
    packaging_format := some .rpm
    install_package_cmdline := some ["zypper", "install"]
    verify_package_cmdline := some ["rpm", "-q", "--whatprovides"]
    python_packages := some ["python3-devel"]
    build_packages := some ["patterns-devel-base-devel_basis"] }

def Unknown : DistroProfile :=
  { name := "Unknown"
    freedesktop_id := none
    freedesktop_id_like := none
    packaging_format := none
    install_package_cmdline := none
    verify_package_cmdline := none
    python_packages := none
    build_packages := none }

/-- The `_distributions` registry in `__init_subclass__` registration order
(class definition order in the module: Arch, Debian, RHEL, SUSE, Unknown). -/
def _distributions : List DistroProfile := [Arch, Debian, RHEL, SUSE, Unknown]

/-- A Python exception raised while identifying a distribution. -/
inductive PyExc where
  | keyError (key : String)
  | typeError (msg : String)
deriving DecidableEq

/-- The freedesktop info consumed by the resolver: a dict of string keys to
string values (the format of `platform.freedesktop_os_release()`). -/
def FDict : Type := String → Option String

/-- The loop of `from_freedesktop_id` (lines 121-128): first registry entry
whose `freedesktop_id` equals the given id; the `for`/`else` falls through
to `Unknown`.  (Comparing a `str` with `None` is simply `False`.) -/
def from_freedesktop_id_loop : List DistroProfile → String → DistroProfile
  | [], _ => Unknown
  | d :: rest, i =>
    if d.freedesktop_id = some i then d else from_freedesktop_id_loop rest i

def from_freedesktop_id (freedesktop_id : String) : DistroProfile :=
  from_freedesktop_id_loop _distributions freedesktop_id

/-- The loop of `from_freedesktop_id_like` (lines 130-140):
`any(d in freedesktop_id_like for d in distro.freedesktop_id_like)` iterates
`distro.freedesktop_id_like`; when that field is `None` (the `Unknown`
profile) Python raises `TypeError: 'NoneType' object is not iterable`. -/
def from_freedesktop_id_like_loop :
    List DistroProfile → List String → Except PyExc DistroProfile
  | [], _ => .ok Unknown
  | d :: rest, ids =>
    match d.freedesktop_id_like with
    | none => .error (.typeError "'NoneType' object is not iterable")
    | some toks =>
      if toks.any (fun t => ids.contains t) then .ok d
      else from_freedesktop_id_like_loop rest ids

def from_freedesktop_id_like (freedesktop_id_like : List String) :
    Except PyExc DistroProfile :=
  from_freedesktop_id_like_loop _distributions freedesktop_id_like

/-- Embeds `from_freedesktop` (lines 111-119).  `freedesktop_info["ID"]` raises
`KeyError` when the key is absent; `distro is Unknown` compares with the
registry entry (all registered profiles are distinct records, so structural
equality coincides with Python object identity here). -/
def from_freedesktop (freedesktop_info : FDict) : Except PyExc DistroProfile :=
  match freedesktop_info "ID" with
  | none => .error (.keyError "ID")
  | some i =>
    let distro := from_freedesktop_id i
    if distro = Unknown then
      from_freedesktop_id_like
        (pyStrSplit (((freedesktop_info "ID_LIKE")).getD ""))
    else .ok distro

/-! ## `LinuxEnvironment` (`linux.py` lines 259-347) -/

/-- A resolved `Distribution` instance: the selected profile bound to the
`vendor`/`codename` context captured by `Distribution.__init__`. -/
structure DistributionInstance where
  profile : DistroProfile
  vendor : Option String
  codename : Option String
deriving DecidableEq

/-- Python `str.split(".")[0]` via the shared split helper. -/
def pySplitDotHead (v : String) : String :=
  String.mk ((pySplitBy (fun c => c = '.') v.data).headD [])

/-- Embeds `_freedesktop_info_codename` (lines 327-347).  The outer `try` treats a
falsy (empty) `VERSION_CODENAME` as missing; the inner `try` falls back to
`VERSION_ID` (with the Arch `TEMPLATE_VERSION_ID` special case) and finally
to the literal `"rolling"`.  Both `KeyError`s are caught, so the function is
total. -/
def _freedesktop_info_codename (freedesktop_info : FDict) : String :=
  let fallback :=
    match freedesktop_info "VERSION_ID" with
    | some v => if v = "TEMPLATE_VERSION_ID" then "rolling" else pySplitDotHead v
    | none => "rolling"
  match freedesktop_info "VERSION_CODENAME" with
  | some c => if c = "" then fallback else c
  | none => fallback

/-- Embeds `bool(cls)` for a Python class object: always `True`.  Kept explicit
because `_identify_distribution` branches on the truthiness of the class
returned by `from_freedesktop`, making its `else` branch unreachable. -/
def classIsTruthy (_distro : DistroProfile) : Bool := true

/-- Embeds `_identify_distribution` (lines 287-301), including the (dead)
`else: return Unknown(vendor=None, codename=None)` branch. -/
def _identify_distribution (freedesktop_info : FDict) :
    Except PyExc DistributionInstance :=
  match from_freedesktop freedesktop_info with
  | .error e => .error e
  | .ok distro =>
    if classIsTruthy distro then
      match freedesktop_info "ID" with
      | some i =>
        .ok { profile := distro
              vendor := some i
              codename := some (_freedesktop_info_codename freedesktop_info) }
      | none => .error (.keyError "ID")
    else .ok { profile := Unknown, vendor := none, codename := none }

/-- Embeds `FREEDESKTOP_INFO_ERROR` (lines 264-267): the single message used by
both the host and the image failure paths. -/
def FREEDESKTOP_INFO_ERROR : String :=
  "Could not find the /etc/os-release file. Is this a Freedesktop-compliant Linux distribution?"

/-- An error escaping `_freedesktop_info_host` / `_freedesktop_info_image`:
the `BriefcaseCommandError` raised on an unreachable source, or a
propagated parse exception. -/
inductive FdInfoError where
  | briefcaseCommandError (msg : String)
  | parseFailure (e : PyException)

/-- The outcome of reading `/etc/os-release` (from the host filesystem or
via `docker ... cat` inside an image): its text, or an I/O-level failure
(`OSError` on the host, `CalledProcessError` for the image). -/
inductive SourceOutcome where
  | content (text : String)
  | ioError

/-- Embeds `_freedesktop_info_host` (lines 303-313): `OSError` becomes a
`BriefcaseCommandError` with `FREEDESKTOP_INFO_ERROR`; parse failures
propagate. -/
def _freedesktop_info_host (r : SourceOutcome) : Except FdInfoError PyDict :=
  match r with
  | .content t => (parse_freedesktop_os_release t).mapError .parseFailure
  | .ioError => .error (.briefcaseCommandError FREEDESKTOP_INFO_ERROR)

/-- Embeds `_freedesktop_info_image` (lines 315-325): `CalledProcessError` becomes
a `BriefcaseCommandError` with the same `FREEDESKTOP_INFO_ERROR`. -/
def _freedesktop_info_image (r : SourceOutcome) : Except FdInfoError PyDict :=
  match r with
  | .content t => (parse_freedesktop_os_release t).mapError .parseFailure
  | .ioError => .error (.briefcaseCommandError FREEDESKTOP_INFO_ERROR)

/-- A `LinuxEnvironment` instance; `objId` models CPython object identity
(two constructions never share an id). -/
structure LinuxEnvironment where
  objId : Nat
deriving DecidableEq

/-- The `linux` attribute slot of a `ToolCache`: `hasattr(tools, "linux")`
is `linux ≠ none`. -/
structure ToolCache where
  linux : Option LinuxEnvironment
deriving DecidableEq

/-- Embeds `LinuxEnvironment.verify_install` (lines 269-277).  `nextObjId` is the
allocator state: a construction consumes one id, the short circuit consumes
none. -/
def verify_install (tools : ToolCache) (nextObjId : Nat) :
    LinuxEnvironment × ToolCache × Nat :=
  match tools.linux with
  | some env => (env, tools, nextObjId)
  | none =>
    let env : LinuxEnvironment := { objId := nextObjId }
    (env, { linux := some env }, nextObjId + 1)

/-! ## Lifecycle orchestration (build command)

`briefcase/commands/build.py` is not part of the corpus (only its test
suite `tests/commands/build/test_call.py` is), so the orchestration below
is modelled from the spec. -/

inductive AppAction where
  | create
  | update
  | build
deriving DecidableEq

/-- Per-app persisted state markers (spec section 4.3). -/
structure AppLifecycleState where
  exists_on_disk : Bool
  has_build_marker : Bool
deriving DecidableEq

/-- Modelled from the spec: the action-chain computation of section 4.3 for
a requested build (`briefcase/commands/build.py` is not under `src/`).
A non-existent app is created then built (no update step even when update
was requested); an existing app is updated first exactly when update was
requested, then built. -/
def actionChain (st : AppLifecycleState) (updateRequested : Bool) : List AppAction :=
  if !st.exists_on_disk then [.create, .build]
  else if updateRequested then [.update, .build]
  else [.build]

/-- The accumulated state dictionary threaded between actions. -/
def StateDict : Type := String → Option String

/-- Modelled from the spec: each action's returned update mapping is merged
into the accumulator, later writes overwriting the same key, other keys
retained. -/
def StateDict.insertMany (acc : StateDict) (ups : List (String × String)) : StateDict :=
  ups.foldl (fun a kv => fun x => if x = kv.1 then some kv.2 else a x) acc

/-- Follows the spec's words: the value written by the last update in the
list that binds the key, if any. -/
def lastUpdate : List (String × String) → String → Option String
  | [], _ => none
  | kv :: rest, k => (lastUpdate rest k) <|> (if k = kv.1 then some kv.2 else none)

/-- An external action executor: given the action, the app name and the
current accumulator, it returns the state entries this action writes. -/
def Executor : Type := AppAction → String → StateDict → List (String × String)

/-- One recorded action execution: which action ran, on which app, against
which starting accumulator, and the update mapping it returned. -/
structure ActionCall where
  action : AppAction
  appName : String
  stateIn : StateDict
  updates : List (String × String)

/-- Modelled from the spec: execute an app's action chain, threading the
accumulator through merges, and record each call. -/
def runChain (ex : Executor) (appName : String) :
    List AppAction → StateDict → StateDict × List ActionCall
  | [], acc => (acc, [])
  | a :: rest, acc =>
    let ups := ex a appName acc
    let next := runChain ex appName rest (acc.insertMany ups)
    (next.1, { action := a, appName := appName, stateIn := acc, updates := ups } :: next.2)

/-- An app in a batch: its name and its current lifecycle state. -/
structure BatchApp where
  name : String
  state : AppLifecycleState

/-- Modelled from the spec: process the apps in order; the accumulator is
carried from each app's final state into the next app's chain (never
reset). -/
def runBatch (ex : Executor) (updateRequested : Bool) :
    List BatchApp → StateDict → StateDict × List ActionCall
  | [], acc => (acc, [])
  | app :: rest, acc =>
    let r1 := runChain ex app.name (actionChain app.state updateRequested) acc
    let r2 := runBatch ex updateRequested rest r1.1
    (r2.1, r1.2 ++ r2.2)

/-- The recorded calls form one uninterrupted accumulator thread starting
from `s`: each call starts from the running accumulator, and the next
accumulator is the merge of the call's updates. -/
def chainFrom (s : StateDict) : List ActionCall → Prop
  | [] => True
  | c :: rest => c.stateIn = s ∧ chainFrom (s.insertMany c.updates) rest

/-- The accumulator obtained after executing all recorded calls from `s`. -/
def threadEnd (s : StateDict) : List ActionCall → StateDict
  | [] => s
  | c :: rest => threadEnd (s.insertMany c.updates) rest

/-- The state key each dummy executor writes, mirroring the recorded
`create_state` / `update_state` / `build_state` entries of the build
command's test suite. -/
def actionStateKey : AppAction → String
  | .create => "create_state"
  | .update => "update_state"
  | .build => "build_state"

/-- An executor like the test suite's dummy command: every action writes
its state key with the app's name. -/
def exampleExecutor : Executor := fun a app _ => [(actionStateKey a, app)]

/-- The trace of a two-app batch: `first` does not exist yet, `second` is
already built, no update requested (the scenario of `test_non_existent`). -/
def exampleBatchTrace : List ActionCall :=
  (runBatch exampleExecutor false
    [⟨"first", ⟨false, false⟩⟩, ⟨"second", ⟨true, true⟩⟩] (fun _ => none)).2

/-- A default call for total indexing into traces. -/
def dummyCall : ActionCall := ⟨.build, "", fun _ => none, []⟩

/-! ## Reference definitions taken from the claims' wording

These restate, in the claims' own terms, the per-line contract of the
parser and the codename rule; the theorems below compare them with the
embedded source functions. -/

/-- The binding a single line contributes: `none` if the line is skipped,
`some (k, v)` for the `values[k] = v` assignment it executes.  Mirrors the
loop body of `parse_freedesktop_os_release` for a non-failing line. -/
def lineBinding (rawLine : String) : Option (String × PyValue) :=
  if pyRstrip rawLine = "" then none
  else if startsWithHash (pyRstrip rawLine) then none
  else
    match matchKeyValue (pyRstrip rawLine) with
    | some kv =>
      if startsWithQuoteChar kv.2 then
        match pyLiteralEval kv.2 with
        | .ok v => some (kv.1, v)
        | _ => none
      else some (kv.1, .pstr kv.2)
    | none => none

/-- A line the claim calls valid: blank or comment, or `KEY=VALUE` in shape
with a value that is either unquoted or a well-formed optionally-quoted
literal evaluating to some value. -/
def validLine (rawLine : String) : Bool :=
  pyRstrip rawLine = "" || startsWithHash (pyRstrip rawLine) ||
    (match matchKeyValue (pyRstrip rawLine) with
     | some kv =>
       !startsWithQuoteChar kv.2 ||
         (match pyLiteralEval kv.2 with
          | .ok _ => true
          | _ => false)
     | none => false)

/-- Follows the spec's words: the value of the last line defining the key,
if any line defines it. -/
def lastDefinedValue : List String → String → Option PyValue
  | [], _ => none
  | l :: rest, k =>
    (lastDefinedValue rest k) <|>
      (match lineBinding l with
       | some kv => if kv.1 = k then some kv.2 else none
       | none => none)

/-- A non-blank, non-comment line that violates the `KEY=VALUE` shape. -/
def shapeViolation (rawLine : String) : Bool :=
  !(pyRstrip rawLine = "") && !(startsWithHash (pyRstrip rawLine)) &&
    (matchKeyValue (pyRstrip rawLine)).isNone

/-- A value that opens a quote and can never close it: it starts with a
quote character and contains no further quote or backslash character. -/
def valueUnterminated (v : String) : Bool :=
  match v.data with
  | c :: body =>
    (c = '"' || c = '\'') && body.all (fun d => !(d = '"' || d = '\'' || d = '\\'))
  | [] => false

/-- A well-shaped `KEY=VALUE` line whose value opens an unterminated
quote. -/
def unterminatedQuoted (rawLine : String) : Bool :=
  match matchKeyValue (pyRstrip rawLine) with
  | some kv => valueUnterminated kv.2
  | none => false

/-- The claim's codename fallback: `VERSION_ID` equal to the
`TEMPLATE_VERSION_ID` sentinel gives `rolling`; otherwise a present
`VERSION_ID` contributes its substring before the first `.`; an absent
`VERSION_ID` gives `rolling`. -/
def codenameSpecFallback (info : FDict) : String :=
  if info "VERSION_ID" = some "TEMPLATE_VERSION_ID" then "rolling"
  else
    match info "VERSION_ID" with
    | some v => String.mk (v.data.takeWhile (fun c => c ≠ '.'))
    | none => "rolling"

/-- The codename-derivation rule exactly as the claim states it: a present,
non-empty `VERSION_CODENAME` is used verbatim, else the `VERSION_ID`
fallback applies (an empty `VERSION_CODENAME` counts as absent). -/
def codenameSpec (info : FDict) : String :=
  match info "VERSION_CODENAME" with
  | some c => if c = "" then codenameSpecFallback info else c
  | none => codenameSpecFallback info

/-- Whether an embedded computation succeeded (no exception escaped). -/
def exceptIsOk {ε α : Type _} : Except ε α → Bool
  | .ok _ => true
  | .error _ => false

/-- The value stored for `key` by a successful parse of `content` (`none`
when parsing failed or the key is absent). -/
def parsedValue (content key : String) : Option PyValue :=
  match parse_freedesktop_os_release content with
  | .ok d => d key
  | .error _ => none

/-! # Theorems -/

theorem opt_orElse_none {α : Type _} (o : Option α) : (o <|> none) = o := by
  cases o <;> rfl

theorem opt_orElse_assoc {α : Type _} (a b c : Option α) :
    ((a <|> b) <|> c) = (a <|> (b <|> c)) := by
  cases a <;> rfl

/-- Claim C1: the claim asserts resolution of any string-to-string identity
mapping is total and never raises.  The code refutes this twice over:
`freedesktop_info["ID"]` raises `KeyError` when the `ID` key is absent, and
the `ID_LIKE` family-fallback loop raises `TypeError` whenever it reaches
the `Unknown` registry entry (whose `freedesktop_id_like` is `None`), which
happens exactly when no other profile matches.  The intended total
behaviour is visible in the source (the `for`/`else` fallback to `Unknown`
and the dead `return Unknown(vendor=None, codename=None)` branch), so this
is recorded as a code bug. -/
theorem C1_resolution_raises :
    _identify_distribution (fun _ => none) = .error (.keyError "ID") ∧
    from_freedesktop_id_like [] = .error (.typeError "'NoneType' object is not iterable") :=
  ⟨rfl, rfl⟩

/-- Claim C2: for the identity mapping `{ID: "unknownos"}` the claim
expects an `Unknown` instance with null vendor and null codename; the code
instead raises `TypeError` out of `from_freedesktop_id_like` (iterating
`Unknown.freedesktop_id_like`, which is `None`), and the branch that would
return `Unknown(vendor=None, codename=None)` is unreachable because Python
classes are always truthy. -/
theorem C2_unknownos_typeerror :
    _identify_distribution (fun k => if k = "ID" then some "unknownos" else none) =
      .error (.typeError "'NoneType' object is not iterable") := rfl

/-- Claim C3 counterexample: the claim says the host-context and
image-context failure messages are distinct wordings; in the code both
paths raise `BriefcaseCommandError(FREEDESKTOP_INFO_ERROR)`, so on the
failing source the two results are identical. -/
theorem C3_messages_identical :
    _freedesktop_info_host .ioError = _freedesktop_info_image .ioError := rfl

/-- Claim C3 (amended): when the os-identity source is unreachable, both
the host path and the image path fail with a user-facing
`BriefcaseCommandError`, but with the same message
`FREEDESKTOP_INFO_ERROR` in both contexts (the wordings are not
distinct). -/
theorem C3_same_user_facing_error :
    _freedesktop_info_host .ioError =
      .error (.briefcaseCommandError FREEDESKTOP_INFO_ERROR) ∧
    _freedesktop_info_image .ioError =
      .error (.briefcaseCommandError FREEDESKTOP_INFO_ERROR) :=
  ⟨rfl, rfl⟩

/-- Claim C5: the action chain is `[create, build]` for a non-existent app
(whether build or update was requested, with no update step), `[build]`
alone for an existing app without an update request (built or not), and
`[update, build]` for an existing app when update is requested — all
independent of the build marker. -/
theorem C5_action_chain : ∀ built upd : Bool,
    actionChain ⟨false, built⟩ upd = [.create, .build] ∧
    actionChain ⟨true, built⟩ false = [.build] ∧
    actionChain ⟨true, built⟩ true = [.update, .build] :=
  fun _ _ => ⟨rfl, rfl, rfl⟩

/-- Claim C10: `verify_install` is idempotent per tool cache: a first call
on a cache without the `linux` attribute constructs exactly one instance
and stores it; any call on a cache that has the attribute returns the
stored instance unchanged, constructs nothing (the allocator state is
untouched) and leaves the cache unchanged. -/
theorem C10_verify_install_idempotent :
    (∀ t n, t.linux = none →
      (verify_install t n).2.1.linux = some (verify_install t n).1 ∧
      (verify_install t n).2.2 = n + 1) ∧
    (∀ t e n, t.linux = some e → verify_install t n = (e, t, n)) := by
  constructor
  · intro t n h
    simp [verify_install, h]
  · intro t e n h
    simp [verify_install, h]

theorem C10_witness :
    ((⟨none⟩ : ToolCache).linux = none) ∧
    (verify_install ⟨none⟩ 0).2.1.linux = some (verify_install ⟨none⟩ 0).1 ∧
    (verify_install ⟨none⟩ 0).2.2 = 0 + 1 ∧
    verify_install ⟨some ⟨0⟩⟩ 1 = (⟨0⟩, ⟨some ⟨0⟩⟩, 1) :=
  ⟨rfl, (C10_verify_install_idempotent.1 ⟨none⟩ 0 rfl).1,
    (C10_verify_install_idempotent.1 ⟨none⟩ 0 rfl).2,
    C10_verify_install_idempotent.2 ⟨some ⟨0⟩⟩ ⟨0⟩ 1 rfl⟩

theorem pySplitBy_ne_nil (p : Char → Bool) (cs : List Char) : pySplitBy p cs ≠ [] := by
  cases cs with
  | nil => simp [pySplitBy]
  | cons c rest =>
    simp only [pySplitBy]
    split
    · simp
    · split <;> simp

/-- The head of Python `str.split(sep)` is the prefix before the first
separator. -/
theorem pySplitBy_headD (sep : Char) (cs : List Char) :
    (pySplitBy (fun c => c = sep) cs).headD [] = cs.takeWhile (fun c => !(c = sep)) := by
  induction cs with
  | nil => rfl
  | cons c rest ih =>
    simp only [pySplitBy, List.takeWhile_cons]
    by_cases hc : c = sep
    · simp [hc]
    · cases hr : pySplitBy (fun c => c = sep) rest with
      | nil => exact absurd hr (pySplitBy_ne_nil _ rest)
      | cons g gs =>
        rw [hr] at ih
        simp only [List.headD_cons] at ih
        simp [hc, hr, ih]

theorem takeWhile_ne_eq_not (sep : Char) (cs : List Char) :
    cs.takeWhile (fun c => c ≠ sep) = cs.takeWhile (fun c => !(c = sep)) := by
  congr 1
  funext c
  simp [decide_not]

theorem codenameSpecFallback_eq (info : FDict) :
    codenameSpecFallback info =
      match info "VERSION_ID" with
      | some v => if v = "TEMPLATE_VERSION_ID" then "rolling" else pySplitDotHead v
      | none => "rolling" := by
  unfold codenameSpecFallback
  cases hv : info "VERSION_ID" with
  | none => simp
  | some v =>
    by_cases ht : v = "TEMPLATE_VERSION_ID"
    · simp [ht]
    · rw [if_neg (by simpa using ht)]
      show String.mk (v.data.takeWhile (fun c => c ≠ '.')) =
        if v = "TEMPLATE_VERSION_ID" then "rolling" else pySplitDotHead v
      rw [if_neg ht]
      unfold pySplitDotHead
      rw [pySplitBy_headD, takeWhile_ne_eq_not]

/-- Claim C4: codename derivation follows the claimed priority exactly —
non-empty `VERSION_CODENAME` verbatim; else `TEMPLATE_VERSION_ID` gives
`rolling`; else a present `VERSION_ID` contributes its prefix before the
first `.`; else `rolling` — and in particular an empty `VERSION_CODENAME`
is treated as absent, so `{VERSION_CODENAME: "", VERSION_ID: "22.04"}`
yields `"22"`. -/
theorem C4_codename_rule :
    (∀ info : FDict, _freedesktop_info_codename info = codenameSpec info) ∧
    _freedesktop_info_codename
      (fun k => if k = "VERSION_CODENAME" then some ""
                else if k = "VERSION_ID" then some "22.04" else none) = "22" := by
  constructor
  · intro info
    unfold _freedesktop_info_codename codenameSpec
    rw [codenameSpecFallback_eq]
  · rfl

theorem from_id_loop_mem (i : String) (p : DistroProfile)
    (hpi : p.freedesktop_id = some i) :
    ∀ L : List DistroProfile, p ∈ L →
      (from_freedesktop_id_loop L i).freedesktop_id = some i := by
  intro L
  induction L with
  | nil => intro hp; exact absurd hp (List.not_mem_nil p)
  | cons d rest ih =>
    intro hp
    by_cases hd : d.freedesktop_id = some i
    · simp [from_freedesktop_id_loop, hd]
    · simp only [from_freedesktop_id_loop, if_neg hd]
      rcases List.mem_cons.mp hp with h | h
      · exact absurd (h ▸ hpi) hd
      · exact ih h

/-- Claim C9: when the identity's `ID` equals a registered profile's exact
identity token, resolution selects a profile carrying exactly that token,
and the result is `.ok (from_freedesktop_id i)` — an expression depending
only on the `ID` token, so the `ID_LIKE` family fallback is never
consulted, whatever `ID_LIKE` holds. -/
theorem C9_exact_id_precedence (info : FDict) (i : String)
    (hid : info "ID" = some i) (p : DistroProfile) (hp : p ∈ _distributions)
    (hpi : p.freedesktop_id = some i) :
    from_freedesktop info = .ok (from_freedesktop_id i) ∧
    (from_freedesktop_id i).freedesktop_id = some i := by
  have hfid : (from_freedesktop_id i).freedesktop_id = some i :=
    from_id_loop_mem i p hpi _distributions hp
  have hne : ¬(from_freedesktop_id i = Unknown) := by
    intro h
    rw [h] at hfid
    simp [Unknown] at hfid
  refine ⟨?_, hfid⟩
  simp [from_freedesktop, hid, hne]

theorem C9_witness :
    from_freedesktop
      (fun k => if k = "ID" then some "debian"
                else if k = "ID_LIKE" then some "arch" else none) =
      .ok (from_freedesktop_id "debian") ∧
    (from_freedesktop_id "debian").freedesktop_id = some "debian" :=
  C9_exact_id_precedence _ "debian" rfl Debian (by decide) rfl

theorem insertMany_lookup (acc : StateDict) (ups : List (String × String)) (k : String) :
    StateDict.insertMany acc ups k = (lastUpdate ups k <|> acc k) := by
  induction ups generalizing acc with
  | nil => rfl
  | cons kv rest ih =>
    show StateDict.insertMany (fun x => if x = kv.1 then some kv.2 else acc x) rest k = _
    rw [ih]
    show _ = ((lastUpdate rest k <|> if k = kv.1 then some kv.2 else none) <|> acc k)
    cases lastUpdate rest k with
    | some w => rfl
    | none =>
      by_cases hk : k = kv.1
      · simp [hk]
      · simp [hk]

theorem insertMany_ne_none (acc : StateDict) (ups : List (String × String)) (k : String)
    (h : acc k ≠ none) : StateDict.insertMany acc ups k ≠ none := by
  rw [insertMany_lookup]
  cases lastUpdate ups k with
  | some w => simp
  | none => exact h

theorem lastUpdate_mem (ups : List (String × String)) (k v : String)
    (h : (k, v) ∈ ups) : lastUpdate ups k ≠ none := by
  induction ups with
  | nil => cases h
  | cons kv rest ih =>
    rcases List.mem_cons.mp h with he | hm
    · subst he
      show (lastUpdate rest k <|> if k = k then some v else none) ≠ none
      cases lastUpdate rest k <;> simp
    · have hr := ih hm
      show (lastUpdate rest k <|> _) ≠ none
      cases hl : lastUpdate rest k with
      | some w => simp
      | none => exact absurd hl hr

theorem runChain_spec (ex : Executor) (app : String) :
    ∀ (chain : List AppAction) (acc : StateDict),
      chainFrom acc (runChain ex app chain acc).2 ∧
      threadEnd acc (runChain ex app chain acc).2 = (runChain ex app chain acc).1 := by
  intro chain
  induction chain with
  | nil => intro acc; exact ⟨trivial, rfl⟩
  | cons a rest ih => intro acc; exact ⟨⟨rfl, (ih _).1⟩, (ih _).2⟩

theorem threadEnd_append (l1 l2 : List ActionCall) :
    ∀ s, threadEnd s (l1 ++ l2) = threadEnd (threadEnd s l1) l2 := by
  induction l1 with
  | nil => intro s; rfl
  | cons c rest ih => intro s; exact ih _

theorem chainFrom_append (l1 l2 : List ActionCall) :
    ∀ s, chainFrom s l1 → chainFrom (threadEnd s l1) l2 → chainFrom s (l1 ++ l2) := by
  induction l1 with
  | nil => intro s _ h2; exact h2
  | cons c rest ih => intro s h1 h2; exact ⟨h1.1, ih _ h1.2 h2⟩

theorem runBatch_spec (ex : Executor) (upd : Bool) :
    ∀ (apps : List BatchApp) (acc : StateDict),
      chainFrom acc (runBatch ex upd apps acc).2 ∧
      threadEnd acc (runBatch ex upd apps acc).2 = (runBatch ex upd apps acc).1 := by
  intro apps
  induction apps with
  | nil => intro acc; exact ⟨trivial, rfl⟩
  | cons app rest ih =>
    intro acc
    have h1 := runChain_spec ex app.name (actionChain app.state upd) acc
    have h2 := ih ((runChain ex app.name (actionChain app.state upd) acc).1)
    constructor
    · apply chainFrom_append _ _ _ h1.1
      rw [h1.2]
      exact h2.1
    · show threadEnd acc (_ ++ _) = _
      rw [threadEnd_append, h1.2]
      exact h2.2

theorem chainFrom_all_present (l : List ActionCall) :
    ∀ (s : StateDict) (k : String), chainFrom s l → s k ≠ none →
      ∀ j (hj : j < l.length), (l.get ⟨j, hj⟩).stateIn k ≠ none := by
  induction l with
  | nil => intro s k _ _ j hj; exact absurd hj (Nat.not_lt_zero j)
  | cons c rest ih =>
    intro s k hcf hs j hj
    cases j with
    | zero =>
      show c.stateIn k ≠ none
      rw [hcf.1]
      exact hs
    | succ j' =>
      show (rest.get ⟨j', Nat.lt_of_succ_lt_succ hj⟩).stateIn k ≠ none
      exact ih _ k hcf.2 (insertMany_ne_none s c.updates k hs) j' _

theorem chainFrom_key_present (l : List ActionCall) :
    ∀ (s : StateDict) (i j : Nat) (hi : i < l.length) (hj : j < l.length),
      chainFrom s l → i < j → ∀ k v, (k, v) ∈ (l.get ⟨i, hi⟩).updates →
        (l.get ⟨j, hj⟩).stateIn k ≠ none := by
  induction l with
  | nil => intro s i j hi; exact absurd hi (Nat.not_lt_zero i)
  | cons c rest ih =>
    intro s i j hi hj hcf hij k v hm
    cases i with
    | zero =>
      cases j with
      | zero => exact absurd hij (lt_irrefl 0)
      | succ j' =>
        show (rest.get ⟨j', Nat.lt_of_succ_lt_succ hj⟩).stateIn k ≠ none
        apply chainFrom_all_present rest _ k hcf.2 _ j' _
        rw [insertMany_lookup]
        cases hl : lastUpdate c.updates k with
        | some w => simp
        | none => exact absurd hl (lastUpdate_mem c.updates k v hm)
    | succ i' =>
      cases j with
      | zero => exact absurd hij (Nat.not_lt_zero _)
      | succ j' =>
        exact ih _ i' j' (Nat.lt_of_succ_lt_succ hi) (Nat.lt_of_succ_lt_succ hj)
          hcf.2 (Nat.lt_of_succ_lt_succ hij) k v hm

/-- Claim C6: the state accumulator is threaded without reset across the
whole batch.  First conjunct: merging a call's returned updates overwrites
the written keys with their last written value and retains every other key.
Second conjunct: the whole batch trace (across all apps) is one
uninterrupted accumulator thread — each action executes against the merge
of everything earlier, with no reset between apps.  Third conjunct: any key
written by an earlier action (of any app) is present in the starting
accumulator of every later action, including the first action of the next
app. -/
theorem C6_state_threading :
    (∀ (acc : StateDict) (ups : List (String × String)) (k : String),
      StateDict.insertMany acc ups k = (lastUpdate ups k <|> acc k)) ∧
    (∀ (ex : Executor) (upd : Bool) (apps : List BatchApp) (acc : StateDict),
      chainFrom acc (runBatch ex upd apps acc).2) ∧
    (∀ (ex : Executor) (upd : Bool) (apps : List BatchApp) (acc : StateDict)
      (i j : Nat) (hi : i < (runBatch ex upd apps acc).2.length)
      (hj : j < (runBatch ex upd apps acc).2.length),
      i < j → ∀ k v,
        (k, v) ∈ ((runBatch ex upd apps acc).2.get ⟨i, hi⟩).updates →
        ((runBatch ex upd apps acc).2.get ⟨j, hj⟩).stateIn k ≠ none) := by
  refine ⟨insertMany_lookup, ?_, ?_⟩
  · intro ex upd apps acc
    exact (runBatch_spec ex upd apps acc).1
  · intro ex upd apps acc i j hi hj hij k v hm
    exact chainFrom_key_present _ _ i j hi hj (runBatch_spec ex upd apps acc).1 hij k v hm

theorem C6_witness :
    ("create_state", "first") ∈ (exampleBatchTrace.getD 0 dummyCall).updates ∧
    (exampleBatchTrace.getD 2 dummyCall).stateIn "create_state" ≠ none := by
  constructor
  · decide
  · exact C6_state_threading.2.2 exampleExecutor false
      [⟨"first", ⟨false, false⟩⟩, ⟨"second", ⟨true, true⟩⟩] (fun _ => none)
      0 2 (by decide) (by decide) (by decide) "create_state" "first" (by decide)

theorem opt_none_orElse {α : Type _} (o : Option α) : ((none : Option α) <|> o) = o := rfl

theorem processLine_valid (n : Nat) (line : String) (h : validLine line = true) :
    processLine n line = .ok (lineBinding line) := by
  unfold validLine at h
  unfold processLine lineBinding
  by_cases h1 : pyRstrip line = ""
  · simp [h1]
  · by_cases h2 : startsWithHash (pyRstrip line) = true
    · simp [h1, h2]
    · simp [h1, h2] at h
      cases hm : matchKeyValue (pyRstrip line) with
      | none =>
        rw [hm] at h
        simp at h
      | some kv =>
        rw [hm] at h
        by_cases h3 : startsWithQuoteChar kv.2 = true
        · cases he : pyLiteralEval kv.2 with
          | ok v => simp [h1, h2, hm, h3, he]
          | synErr m => simp [h3, he] at h
          | valErr m => simp [h3, he] at h
        · simp [h1, h2, hm, h3]

theorem parseLoop_cons_skip (n : Nat) (l : String) (rest : List String) (d0 : PyDict)
    (h : processLine n l = .ok none) :
    parseLoop n (l :: rest) d0 = parseLoop (n + 1) rest d0 := by
  simp only [parseLoop, h]

theorem parseLoop_cons_store (n : Nat) (l : String) (rest : List String) (d0 : PyDict)
    (kv : String × PyValue) (h : processLine n l = .ok (some kv)) :
    parseLoop n (l :: rest) d0 = parseLoop (n + 1) rest (updateDict d0 kv.1 kv.2) := by
  simp only [parseLoop, h]

theorem parseLoop_cons_err (n : Nat) (l : String) (rest : List String) (d0 : PyDict)
    (e : PyException) (h : processLine n l = .error e) :
    parseLoop n (l :: rest) d0 = .error e := by
  simp only [parseLoop, h]

theorem parseLoop_valid (lines : List String) :
    ∀ (n : Nat) (d0 : PyDict), (∀ l ∈ lines, validLine l = true) →
      ∃ d, parseLoop n lines d0 = .ok d ∧
        ∀ k, d k = (lastDefinedValue lines k <|> d0 k) := by
  induction lines with
  | nil =>
    intro n d0 _
    exact ⟨d0, rfl, fun k => rfl⟩
  | cons l rest ih =>
    intro n d0 h
    have hl : validLine l = true := h l (List.mem_cons_self l rest)
    have hrest : ∀ x ∈ rest, validLine x = true := fun x hx => h x (List.mem_cons_of_mem l hx)
    have hpl := processLine_valid n l hl
    cases hb : lineBinding l with
    | none =>
      obtain ⟨d, hd, hk⟩ := ih (n + 1) d0 hrest
      refine ⟨d, ?_, ?_⟩
      · rw [parseLoop_cons_skip n l rest d0 (hb ▸ hpl)]
        exact hd
      · intro k
        rw [hk k]
        simp only [lastDefinedValue, hb, opt_orElse_none]
    | some kv =>
      obtain ⟨d, hd, hk⟩ := ih (n + 1) (updateDict d0 kv.1 kv.2) hrest
      refine ⟨d, ?_, ?_⟩
      · rw [parseLoop_cons_store n l rest d0 kv (hb ▸ hpl)]
        exact hd
      · intro k
        rw [hk k]
        simp only [lastDefinedValue, hb, updateDict]
        rw [opt_orElse_assoc]
        by_cases hkk : k = kv.1
        · simp [hkk]
        · simp [hkk, Ne.symm hkk, opt_none_orElse]

/-- Claim C7: for any text all of whose lines are blank, comments, or
well-shaped `KEY=VALUE` lines with a valid optionally-quoted value,
parsing succeeds (no exception), and the value stored for every key is the
value contributed by the last line defining that key. -/
theorem C7_parse_total_last_wins (content : String)
    (h : ∀ l ∈ pySplitNewlines content, validLine l = true) :
    ∃ d, parse_freedesktop_os_release content = .ok d ∧
      ∀ k, d k = lastDefinedValue (pySplitNewlines content) k := by
  obtain ⟨d, hd, hk⟩ := parseLoop_valid (pySplitNewlines content) 1 (fun _ => none) h
  exact ⟨d, hd, fun k => by rw [hk k, opt_orElse_none]⟩

theorem C7_witness :
    parsedValue "ID=ubuntu\nID=debian\n# note\nNAME=\"Linux\"" "ID" = some (.pstr "debian") := by
  obtain ⟨d, hd, hk⟩ :=
    C7_parse_total_last_wins "ID=ubuntu\nID=debian\n# note\nNAME=\"Linux\"" (by decide)
  unfold parsedValue
  rw [hd]
  show d "ID" = some (.pstr "debian")
  rw [hk "ID"]
  decide

/-- Claim C8 counterexample: the value `"a",` begins with a double quote
and is not a validly closed/escaped quoted literal (it is a tuple display),
yet parsing does not fail: `ast.literal_eval` evaluates it to the tuple
`("a",)`, which is stored in the mapping. -/
theorem C8_quoted_tuple_accepted :
    exceptIsOk (parse_freedesktop_os_release "KK=\"a\",") = true ∧
    parsedValue "KK=\"a\"," "KK" = some (.ptuple ["a"]) := by
  exact ⟨rfl, rfl⟩

theorem processLine_shape_err (n : Nat) (l : String) (h : shapeViolation l = true) :
    processLine n l = .error (.parseError
      (parseErrorIntro ++ "Line " ++ toString n ++ ": " ++ pyReprStr (pyRstrip l))) := by
  have h' := h
  simp only [shapeViolation, Bool.and_eq_true, Bool.not_eq_true', decide_eq_false_iff_not,
    Option.isNone_iff_eq_none] at h'
  obtain ⟨⟨h1, h2⟩, h3⟩ := h'
  unfold processLine
  simp [h1, h2, h3]

theorem lexShortString_unterm (q : Char) (hq : q = '"' ∨ q = '\'') :
    ∀ (body : List Char) (fuel : Nat),
      (∀ c ∈ body, ¬(c = '"') ∧ ¬(c = '\'') ∧ ¬(c = '\\')) →
      lexShortString q fuel body = none := by
  intro body
  induction body with
  | nil => intro fuel _; cases fuel <;> rfl
  | cons c rest ih =>
    intro fuel h
    obtain ⟨hc1, hc2, hc3⟩ := h c (List.mem_cons_self c rest)
    have hrest := fun x hx => h x (List.mem_cons_of_mem c hx)
    cases fuel with
    | zero => rfl
    | succ fuel' =>
      have hcq : ¬(c = q) := by rcases hq with h' | h' <;> (subst h'; assumption)
      simp only [lexShortString]
      rw [if_neg hc3, if_neg hcq]
      by_cases hnl : (c = '\n' || c = '\r') = true
      · rw [if_pos hnl]
      · rw [if_neg hnl, ih fuel' hrest]
        rfl

theorem pyLiteralEval_unterm (v : String) (h : valueUnterminated v = true) :
    pyLiteralEval v = .synErr "invalid syntax" := by
  unfold valueUnterminated at h
  cases hv : v.data with
  | nil => rw [hv] at h; simp at h
  | cons c body =>
    rw [hv] at h
    simp only [Bool.and_eq_true, List.all_eq_true] at h
    obtain ⟨hcq, hbody⟩ := h
    have hq : c = '"' ∨ c = '\'' := by simpa using hcq
    have hbody' : ∀ x ∈ body, ¬(x = '"') ∧ ¬(x = '\'') ∧ ¬(x = '\\') := by
      intro x hx
      have hb := hbody x hx
      simp at hb
      tauto
    have hlex : lexShortString c (body.length + 1) body = none :=
      lexShortString_unterm c hq body (body.length + 1) hbody'
    have hgroup : lexGroup (body.length + 1 + 1) (c :: body) = none := by
      simp only [lexGroup]
      rw [if_pos hcq, hlex]
    have helem : lexElem (body.length + 1 + 1) (c :: body) = none := by
      simp only [lexElem]
      rw [hgroup]
    unfold pyLiteralEval
    rw [hv]
    simp only [List.length_cons]
    rw [helem]

theorem valueUnterminated_quote (v : String) (h : valueUnterminated v = true) :
    startsWithQuoteChar v = true := by
  unfold valueUnterminated at h
  unfold startsWithQuoteChar
  cases hv : v.data with
  | nil => rw [hv] at h; simp at h
  | cons c body =>
    rw [hv] at h
    simp only [Bool.and_eq_true] at h
    exact h.1

theorem matchKeyValue_props (l : String) (kv : String × String)
    (h : matchKeyValue l = some kv) : ¬(l = "") ∧ startsWithHash l = false := by
  cases hld : l.data with
  | nil =>
    exfalso
    unfold matchKeyValue at h
    rw [hld] at h
    simp at h
  | cons d0 dr =>
    have hne : ¬(l = "") := by
      intro he
      rw [he] at hld
      exact absurd hld (by simp)
    refine ⟨hne, ?_⟩
    unfold startsWithHash
    rw [hld]
    by_cases hd0 : (d0 = '#' : Prop)
    · exfalso
      subst hd0
      unfold matchKeyValue at h
      rw [hld] at h
      cases hdw : List.dropWhile (fun c => c ≠ '=') ('#' :: dr) with
      | nil =>
        rw [hdw] at h
        simp at h
      | cons e vc =>
        rw [hdw, List.takeWhile_cons] at h
        simp [keyStartOk] at h
    · simp [hd0]

theorem processLine_unterm (n : Nat) (l : String) (h : unterminatedQuoted l = true) :
    processLine n l = .error (.parseError
      (parseErrorIntro ++ "Line " ++ toString n ++ ": " ++ "invalid syntax")) := by
  unfold unterminatedQuoted at h
  cases hm : matchKeyValue (pyRstrip l) with
  | none => rw [hm] at h; simp at h
  | some kv =>
    rw [hm] at h
    have hq := valueUnterminated_quote kv.2 h
    have hsyn := pyLiteralEval_unterm kv.2 h
    obtain ⟨h1, h2⟩ := matchKeyValue_props (pyRstrip l) kv hm
    unfold processLine
    simp [h1, h2, hm, hq, hsyn]

theorem parseLoop_first_bad (lines : List String) :
    ∀ (i n : Nat) (d0 : PyDict) (hi : i < lines.length),
      (∀ j (hj : j < lines.length), j < i → validLine (lines.get ⟨j, hj⟩) = true) →
      (shapeViolation (lines.get ⟨i, hi⟩) = true ∨
        unterminatedQuoted (lines.get ⟨i, hi⟩) = true) →
      ∃ suffix, parseLoop n lines d0 = .error (.parseError
        (parseErrorIntro ++ "Line " ++ toString (n + i) ++ ": " ++ suffix)) := by
  induction lines with
  | nil => intro i n d0 hi; exact absurd hi (Nat.not_lt_zero i)
  | cons l rest ih =>
    intro i n d0 hi hprev hbad
    cases i with
    | zero =>
      rcases hbad with hb | hb
      · refine ⟨pyReprStr (pyRstrip l), ?_⟩
        rw [Nat.add_zero]
        exact parseLoop_cons_err n l rest d0 _ (processLine_shape_err n l hb)
      · refine ⟨"invalid syntax", ?_⟩
        rw [Nat.add_zero]
        exact parseLoop_cons_err n l rest d0 _ (processLine_unterm n l hb)
    | succ i' =>
      have hl : validLine l = true := hprev 0 (Nat.succ_pos _) (Nat.succ_pos i')
      have hpl := processLine_valid n l hl
      have hprev' : ∀ j (hj : j < rest.length), j < i' →
          validLine (rest.get ⟨j, hj⟩) = true :=
        fun j hj hji => hprev (j + 1) (Nat.succ_lt_succ hj) (Nat.succ_lt_succ hji)
      have hbad' : shapeViolation (rest.get ⟨i', Nat.lt_of_succ_lt_succ hi⟩) = true ∨
          unterminatedQuoted (rest.get ⟨i', Nat.lt_of_succ_lt_succ hi⟩) = true := hbad
      cases hb : lineBinding l with
      | none =>
        obtain ⟨suf, hs⟩ := ih i' (n + 1) d0 (Nat.lt_of_succ_lt_succ hi) hprev' hbad'
        refine ⟨suf, ?_⟩
        rw [parseLoop_cons_skip n l rest d0 (hb ▸ hpl)]
        rw [show n + (i' + 1) = n + 1 + i' from by omega]
        exact hs
      | some kv =>
        obtain ⟨suf, hs⟩ :=
          ih i' (n + 1) (updateDict d0 kv.1 kv.2) (Nat.lt_of_succ_lt_succ hi) hprev' hbad'
        refine ⟨suf, ?_⟩
        rw [parseLoop_cons_store n l rest d0 kv (hb ▸ hpl)]
        rw [show n + (i' + 1) = n + 1 + i' from by omega]
        exact hs

/-- Claim C8 (amended): if the first offending line of the text violates
the `KEY=VALUE` shape, or opens a quote it never closes (no further quote
or backslash characters), parsing fails with a `ParseError` whose message
reports that line's correct 1-based line number.  (As the counterexample
shows, a quote-initial value that is a valid non-string literal — e.g. a
tuple display — is accepted rather than rejected, and quote-initial values
that parse as non-literal expressions raise `ValueError`, which is not a
`ParseError`; the claim's universal failure statement had to be narrowed
accordingly.) -/
theorem C8_parse_error_line_numbers (content : String) (i : Nat)
    (hi : i < (pySplitNewlines content).length)
    (hprev : ∀ j (hj : j < (pySplitNewlines content).length), j < i →
      validLine ((pySplitNewlines content).get ⟨j, hj⟩) = true)
    (hbad : shapeViolation ((pySplitNewlines content).get ⟨i, hi⟩) = true ∨
      unterminatedQuoted ((pySplitNewlines content).get ⟨i, hi⟩) = true) :
    ∃ suffix, parse_freedesktop_os_release content = .error (.parseError
      (parseErrorIntro ++ "Line " ++ toString (i + 1) ++ ": " ++ suffix)) := by
  obtain ⟨suf, hs⟩ :=
    parseLoop_first_bad (pySplitNewlines content) i 1 (fun _ => none) hi hprev hbad
  refine ⟨suf, ?_⟩
  rw [show i + 1 = 1 + i from Nat.add_comm i 1]
  exact hs

theorem C8_witness :
    (shapeViolation "not a key" = true) ∧
    ∃ suffix, parse_freedesktop_os_release "AB=ok\nnot a key" = .error (.parseError
      (parseErrorIntro ++ "Line " ++ toString 2 ++ ": " ++ suffix)) := by
  refine ⟨by decide, ?_⟩
  exact C8_parse_error_line_numbers "AB=ok\nnot a key" 1 (by decide)
    (fun j hj hj1 => by
      have hj0 : j = 0 := by omega
      subst hj0
      have hget : (pySplitNewlines "AB=ok\nnot a key").get ⟨0, hj⟩ = "AB=ok" := rfl
      rw [hget]
      decide)
    (Or.inl (by decide))

end Briefcase
